import Mathlib

/-!
Verification of the lifecycle-orchestrator entry module of the micro-app
repository (`micro_app.ts`): the registry queries `getActiveApps` and
`getAllApps`, the host-facing `unmountApp` / `unmountAllApps` operations,
and `MicroApp.start`.

The registry (`appInstanceMap`, a JS `Map`) is embedded as an association
list in insertion order; JS `Map.forEach` / `Map.keys` iterate in insertion
order, which the list order models directly.  Container DOM state is an
explicit record (attributes, parent attachment, attached event listeners).
Promise chaining is embedded as a small process type (`Proc`) whose
sequential composition models `.then`.
-/

namespace MicroAppSpec

/-- Lifecycle states (`appStates` in `constants.ts`).  Only the distinction
between `UNMOUNT` and the other states matters to the verified module. -/
inductive AppState where
  | CREATED
  | LOADING
  | MOUNTED
  | UNMOUNT
deriving DecidableEq, Repr

/-- Keep-alive sub-states (`keepAliveStates` in `constants.ts`), with `NONE`
for an app not under keep-alive. -/
inductive KeepAliveState where
  | NONE
  | KEEP_ALIVE_SHOW
  | KEEP_ALIVE_HIDDEN
deriving DecidableEq, Repr

/-- Container event names used by the unmount flow. -/
inductive Ev where
  | unmountEv
  | afterhiddenEv
deriving DecidableEq, Repr

/-- Host-page container element state: its attribute list (name/value pairs,
at most one entry per name), whether it is still attached to its parent
node, and which of the two unmount-flow event listeners are attached. -/
structure ContainerSt where
  attrs : List (String × String)
  hasParent : Bool
  listeners : List Ev
deriving DecidableEq, Repr

/-- `Element.getAttribute`: value of the first (unique) entry for the name. -/
def getAttr (c : ContainerSt) (k : String) : Option String :=
  (c.attrs.find? (fun p => p.1 = k)).map (fun p => p.2)

/-- `Element.hasAttribute`. -/
def hasAttr (c : ContainerSt) (k : String) : Bool :=
  c.attrs.any (fun p => p.1 = k)

/-- `Element.setAttribute`: replace the existing entry in place, else append. -/
def setAttr (c : ContainerSt) (k v : String) : ContainerSt :=
  if c.attrs.any (fun p => p.1 = k) then
    { c with attrs := c.attrs.map (fun p => if p.1 = k then (k, v) else p) }
  else
    { c with attrs := c.attrs ++ [(k, v)] }

/-- `Element.removeAttribute`. -/
def removeAttr (c : ContainerSt) (k : String) : ContainerSt :=
  { c with attrs := c.attrs.filter (fun p => ¬ p.1 = k) }

/-- `parentNode.removeChild(container)`. -/
def removeChild (c : ContainerSt) : ContainerSt :=
  { c with hasParent := false }

/-- `addEventListener` for one of the two unmount-flow listeners. -/
def addListener (c : ContainerSt) (e : Ev) : ContainerSt :=
  { c with listeners := c.listeners ++ [e] }

/-- One application instance (`AppInterface`), restricted to the fields the
verified module reads: lifecycle state, keep-alive state, the `isPrefetch`
flag, whether its Sandbox Context is still held, whether its Communication
Bus channel is still held, and its container reference. -/
structure AppInterface where
  state : AppState
  keepAliveState : KeepAliveState
  isPrefetch : Bool
  hasSandbox : Bool
  hasBus : Bool
  container : Option ContainerSt
deriving DecidableEq, Repr

/-- The Application Registry (`appInstanceMap : Map<string, AppInterface>`)
as an association list in insertion order. -/
abbrev Registry := List (String × AppInterface)

/-- `Map.get`. -/
def lookupApp (r : Registry) (name : String) : Option AppInterface :=
  (r.find? (fun p => p.1 = name)).map (fun p => p.2)

/-- `Map.set`: JS `Map.set` overwrites in place when the key exists,
otherwise appends, preserving insertion order. -/
def setApp (r : Registry) (name : String) (app : AppInterface) : Registry :=
  if r.any (fun p => p.1 = name) then
    r.map (fun p => if p.1 = name then (name, app) else p)
  else
    r ++ [(name, app)]

/-- `Map.delete`. -/
def eraseApp (r : Registry) (name : String) : Registry :=
  r.filter (fun p => ¬ p.1 = name)

/-- The predicate of `getActiveApps` (lines 18-24 of `micro_app.ts`): not
`UNMOUNT`, not prefetch, and, when `excludeHiddenApp` is set, not
`KEEP_ALIVE_HIDDEN`. -/
def isActiveApp (excludeHiddenApp : Bool) (app : AppInterface) : Bool :=
  ¬ app.state = AppState.UNMOUNT &&
  ¬ app.isPrefetch &&
  (!excludeHiddenApp || ¬ app.keepAliveState = KeepAliveState.KEEP_ALIVE_HIDDEN)

/-- `getActiveApps`: a `forEach` over the registry pushing the names of apps
passing `isActiveApp`, in iteration (insertion) order. -/
def getActiveApps (r : Registry) (excludeHiddenApp : Bool) : List String :=
  r.foldl
    (fun acc p => if isActiveApp excludeHiddenApp p.2 then acc ++ [p.1] else acc)
    []

/-- `getAllApps`: `Array.from(appInstanceMap.keys())`. -/
def getAllApps (r : Registry) : List String :=
  r.map (fun p => p.1)

/-- `unmountAppParams`: both flags default to false when absent. -/
structure UnmountAppParams where
  destroy : Bool := false
  clearAliveState : Bool := false
deriving DecidableEq, Repr

/-- Observable operations performed by an `unmountApp` call, tagged by the
(formatted) application name they concern. -/
inductive TraceItem where
  | addL (name : String) (e : Ev)
  | remL (name : String) (e : Ev)
  | removeChildStep (name : String)
  | eventFired (name : String)
  | resolveStep (name : String)
  | warnStep (name : String)
  | destroyStep (name : String)
  | hiddenUnmountStep (name : String) (destroy : Bool)
deriving DecidableEq, Repr

/-- A promise-shaped process: a sequence of synchronous observable
operations and suspension points.  `waitEv name k` suspends until the
named application's container fires its `unmount`/`afterhidden` event,
then continues as `k`. -/
inductive Proc where
  | done
  | emit (t : TraceItem) (k : Proc)
  | waitEv (name : String) (k : Proc)
deriving DecidableEq, Repr

/-- `p.then(() => q)`: run all of `p` (including its suspensions), then `q`. -/
def Proc.seq : Proc → Proc → Proc
  | .done, q => q
  | .emit t k, q => .emit t (Proc.seq k q)
  | .waitEv n k, q => .waitEv n (Proc.seq k q)

/-- Run a process against the environment that eventually fires each awaited
container event; the firing is recorded as an `eventFired` item. -/
def Proc.run : Proc → List TraceItem
  | .done => []
  | .emit t k => t :: Proc.run k
  | .waitEv n k => TraceItem.eventFired n :: Proc.run k

/-- Destroy branch of the mounted-visible path (lines 83-93 of
`micro_app.ts`): remember any pre-existing `destroy` / legacy-misspelled
`destory` marker attributes, set the canonical marker, remove the container
from its parent, drop the temporary marker, then restore the remembered
values. -/
def destroyBranch (c : ContainerSt) : ContainerSt :=
  let destroyAttrValue : Option String :=
    if hasAttr c "destroy" then getAttr c "destroy" else none
  let destoryAttrValue : Option String :=
    if hasAttr c "destory" then getAttr c "destory" else none
  let c1 := setAttr c "destroy" "true"
  let c2 := removeChild c1
  let c3 := removeAttr c2 "destroy"
  let c4 := match destroyAttrValue with
    | some v => setAttr c3 "destroy" v
    | none => c3
  match destoryAttrValue with
  | some v => setAttr c4 "destory" v
  | none => c4

/-- Keep-alive branch of the mounted-visible path (lines 94-100): remember
the `keep-alive` marker, remove it, detach the container, restore it. -/
def keepAliveBranch (c : ContainerSt) : ContainerSt :=
  let keepAliveAttrValue := (getAttr c "keep-alive").getD ""
  let c1 := removeAttr c "keep-alive"
  let c2 := removeChild c1
  setAttr c2 "keep-alive" keepAliveAttrValue

/-- Container manipulation of the mounted-visible path after the two event
listeners are attached (lines 83-103): `destroy` takes the destroy branch,
else `clearAliveState` with a present `keep-alive` attribute takes the
keep-alive branch, else the container is simply detached. -/
def teardownContainer (options : UnmountAppParams) (c : ContainerSt) : ContainerSt :=
  if options.destroy then
    destroyBranch c
  else if options.clearAliveState && hasAttr c "keep-alive" then
    keepAliveBranch c
  else
    removeChild c

/-- Which dispatch branch of `unmountApp` was taken. -/
inductive UnmountOutcome where
  | missing
  | noop
  | completelyDestroyed
  | hiddenDestroyed
  | hiddenCleared
  | containerTorndown
deriving DecidableEq, Repr

/-- Result of one `unmountApp` call: the registry afterwards, the container
afterwards (when the call manipulated one), the branch taken, and the
observable process up to the promise's resolution. -/
structure UnmountResult where
  registry : Registry
  container : Option ContainerSt
  outcome : UnmountOutcome
  proc : Proc
deriving Repr

/-- Modelled from the spec: `app.actionsForCompletelyDestroy` lives in
`create_app.ts`, which is not under `src/`.  Per the decision table of
spec section 4.2 it fully destroys the application: Sandbox Context and
Communication Bus channel are released and the Registry entry is deleted. -/
def actionsForCompletelyDestroy (r : Registry) (name : String) : Registry :=
  eraseApp r name

/-- Modelled from the spec: `app.unmount(destroy, unmountcb)` on a
`KEEP_ALIVE_HIDDEN` application lives in `create_app.ts`, which is not
under `src/`.  Per the decision table and section 8 of the spec:
with `destroy = true` the container is destroyed and all resources are
released, deleting the Registry entry; with `destroy = false` the hidden
keep-alive state is cleared and the application transitions to `UNMOUNT`,
while the Registry entry and the Sandbox Context are retained.  The
callback (`resolve`) is invoked once the `unmount`/`afterhidden` event
has fired. -/
def hiddenUnmount (r : Registry) (name : String) (app : AppInterface)
    (destroy : Bool) : Registry :=
  if destroy then
    eraseApp r name
  else
    setApp r name
      { app with
        state := AppState.UNMOUNT
        keepAliveState := KeepAliveState.NONE }

/-- Fallback container for the source's non-null assertion
`app.container!`; unreachable for a mounted, visible application, which
always holds a container. -/
def defaultContainer : ContainerSt :=
  { attrs := [], hasParent := false, listeners := [] }

/-- `unmountApp(appName, options)` (lines 49-110 of `micro_app.ts`).
`fmt` stands for `formatAppName` from the excluded `libs/utils`.  The
dispatch is translated branch-for-branch from the source; the effects of
the external calls `actionsForCompletelyDestroy` and `app.unmount` are the
spec-modelled definitions above.  On the mounted-visible path the app's
own state transition is driven by the excluded custom-element adapter
reacting to the container's removal, so this model leaves the registry
unchanged there and records the container manipulation and the
listener/event protocol. -/
def unmountApp (fmt : String → String) (r : Registry) (appName : String)
    (options : UnmountAppParams) : UnmountResult :=
  let name := fmt appName
  match lookupApp r name with
  | some app =>
    if app.state = AppState.UNMOUNT || app.isPrefetch then
      if options.destroy then
        { registry := actionsForCompletelyDestroy r name
          container := app.container
          outcome := .completelyDestroyed
          proc := .emit (.destroyStep name) (.emit (.resolveStep name) .done) }
      else
        { registry := r
          container := app.container
          outcome := .noop
          proc := .emit (.resolveStep name) .done }
    else if app.keepAliveState = KeepAliveState.KEEP_ALIVE_HIDDEN then
      if options.destroy then
        { registry := hiddenUnmount r name app true
          container := app.container
          outcome := .hiddenDestroyed
          proc := .emit (.hiddenUnmountStep name true)
            (.waitEv name (.emit (.resolveStep name) .done)) }
      else if options.clearAliveState then
        { registry := hiddenUnmount r name app false
          container := app.container
          outcome := .hiddenCleared
          proc := .emit (.hiddenUnmountStep name false)
            (.waitEv name (.emit (.resolveStep name) .done)) }
      else
        { registry := r
          container := app.container
          outcome := .noop
          proc := .emit (.resolveStep name) .done }
    else
      let c0 := app.container.getD defaultContainer
      let c1 := addListener (addListener c0 Ev.unmountEv) Ev.afterhiddenEv
      let c2 := teardownContainer options c1
      { registry := r
        container := some c2
        outcome := .containerTorndown
        proc := .emit (.addL name Ev.unmountEv) (.emit (.addL name Ev.afterhiddenEv)
          (.emit (.removeChildStep name)
            (.waitEv name (.emit (.remL name Ev.unmountEv)
              (.emit (.remL name Ev.afterhiddenEv)
                (.emit (.resolveStep name) .done)))))) }
  | none =>
    { registry := r
      container := none
      outcome := .missing
      proc := .emit (.warnStep appName) (.emit (.resolveStep appName) .done) }

/-- `unmountAllApps(options)` (lines 113-115): the key list is taken from
the registry once, then `reduce((pre, next) => pre.then(() => unmountApp(next,
options)), Promise.resolve())` chains the unmounts; the registry each call
observes is the one left by the previous call. -/
def unmountAllProcGo (fmt : String → String) (options : UnmountAppParams)
    (names : List String) (pre : Proc) (r : Registry) : Proc × Registry :=
  match names with
  | [] => (pre, r)
  | next :: rest =>
    let res := unmountApp fmt r next options
    unmountAllProcGo fmt options rest (Proc.seq pre res.proc) res.registry

/-- `unmountAllApps`: the chained process and the final registry. -/
def unmountAllApps (fmt : String → String) (r : Registry)
    (options : UnmountAppParams) : Proc × Registry :=
  unmountAllProcGo fmt options (getAllApps r) Proc.done r

/-- `removeEventListener` for one of the two unmount-flow listeners. -/
def removeListener (c : ContainerSt) (e : Ev) : ContainerSt :=
  { c with listeners := c.listeners.filter (fun x => ¬ x = e) }

/-- Body shared by `unmountHandler` and `afterhiddenHandler` (lines 68-78):
remove both listeners, then resolve; the resolution is reported to the
caller of `fireEvent` as a count increment. -/
def handlerBody (c : ContainerSt) : ContainerSt :=
  removeListener (removeListener c Ev.unmountEv) Ev.afterhiddenEv

/-- The container dispatches event `e`: the corresponding handler runs only
while its listener is still attached.  The second component counts how many
times `resolve` has run. -/
def fireEvent (s : ContainerSt × Nat) (e : Ev) : ContainerSt × Nat :=
  if s.1.listeners.contains e then (handlerBody s.1, s.2 + 1) else s

/-- The container dispatches a whole sequence of `unmount` / `afterhidden`
events, in any order and with repetitions. -/
def fireEvents (s : ContainerSt × Nat) (evs : List Ev) : ContainerSt × Nat :=
  evs.foldl fireEvent s

/-- Environment probed by `MicroApp.start` (lines 133-135, 147):
`isBrowser`, availability of `window.customElements`, and the set of
custom-element names already defined. -/
structure StartEnv where
  isBrowser : Bool
  hasCustomElements : Bool
  definedElements : List String
deriving DecidableEq, Repr

/-- The part of `OptionsType` that `MicroApp.start` branches on for its
error handling; `preFetchApps` / `globalAssets` record whether those
(truthy) fields were supplied. -/
structure StartOptions where
  tagName : Option String := none
  preFetchApps : Bool := false
  globalAssets : Bool := false
deriving DecidableEq, Repr

/-- A message on the non-fatal log channel (`logError` / `logWarn`). -/
inductive LogItem where
  | error (msg : String)
  | warn (msg : String)
deriving DecidableEq, Repr

/-- Effects of one `MicroApp.start` call. -/
structure StartResult where
  logs : List LogItem
  initGlobalEnvCalled : Bool
  definedElement : Option String
  prefetchCalled : Bool
  globalAssetsCalled : Bool
  tagName : String
deriving DecidableEq, Repr

/-- Character-list test that the second list begins with the first. -/
def beginsWith : List Char → List Char → Bool
  | [], _ => true
  | _ :: _, [] => false
  | a :: as, b :: bs => a = b && beginsWith as bs

/-- The tag-name test of line 139: the regex `micro-app(-\S+)?` anchored
only at the start, used with `.test`, succeeds exactly on strings that
begin with `micro-app` (the group is optional, and nothing anchors the
end). -/
def tagNameTest (s : String) : Bool :=
  beginsWith "micro-app".data s.data

/-- Continuation of `MicroApp.start` once the tag name has been resolved
(lines 146-200): duplicate-registration check, `initGlobalEnv`, option
absorption with optional prefetch / global-assets scheduling, and
`defineElement`. -/
def startAfterTag (env : StartEnv) (options : Option StartOptions)
    (tag : String) : StartResult :=
  if env.definedElements.contains tag then
    { logs := [.warn ("element " ++ tag ++ " is already defined")]
      initGlobalEnvCalled := false
      definedElement := none
      prefetchCalled := false
      globalAssetsCalled := false
      tagName := tag }
  else
    { logs := []
      initGlobalEnvCalled := true
      definedElement := some tag
      prefetchCalled := (options.map (fun o => o.preFetchApps)).getD false
      globalAssetsCalled := (options.map (fun o => o.globalAssets)).getD false
      tagName := tag }

/-- `MicroApp.start(options)` (lines 132-201), at the initial field value
`this.tagName = 'micro-app'`.  Unsupported environment and invalid tag
name log an error and return; an already-defined element logs a warning
and returns; otherwise `initGlobalEnv` runs, option fields are absorbed
(with optional prefetch / global-assets scheduling), and `defineElement`
registers the resolved tag name. -/
def start (env : StartEnv) (options : Option StartOptions) : StartResult :=
  if !env.isBrowser || !env.hasCustomElements then
    { logs := [.error "micro-app is not supported in this environment"]
      initGlobalEnvCalled := false
      definedElement := none
      prefetchCalled := false
      globalAssetsCalled := false
      tagName := "micro-app" }
  else
    match options.bind (fun o => o.tagName) with
    | some t =>
      if tagNameTest t then
        startAfterTag env options t
      else
        { logs := [.error (t ++ " is invalid tagName")]
          initGlobalEnvCalled := false
          definedElement := none
          prefetchCalled := false
          globalAssetsCalled := false
          tagName := "micro-app" }
    | none => startAfterTag env options "micro-app"

theorem find?_replace_same {A : Type} (l : List (String × A)) (k : String)
    (v : A) (h : l.any (fun p => p.1 = k) = true) :
    (l.map (fun p => if p.1 = k then (k, v) else p)).find?
      (fun p => p.1 = k) = some (k, v) := by
  induction l with
  | nil => simp at h
  | cons hd tl ih =>
    by_cases hk : hd.1 = k
    · simp [List.find?, hk]
    · simp only [List.any_cons, Bool.or_eq_true, decide_eq_true_eq] at h
      rcases h with h | h
      · exact absurd h hk
      · simp [List.find?, hk, ih h]

theorem find?_replace_ne {A : Type} (l : List (String × A)) (k' : String)
    (v : A) (k : String) (hne : ¬ k' = k) :
    (l.map (fun p => if p.1 = k' then (k', v) else p)).find?
      (fun p => p.1 = k) = l.find? (fun p => p.1 = k) := by
  induction l with
  | nil => rfl
  | cons hd tl ih =>
    by_cases hk : hd.1 = k'
    · have h2 : ¬ hd.1 = k := by rw [hk]; exact hne
      rw [List.map_cons, if_pos hk,
        List.find?_cons_of_neg _ (by simpa using hne),
        List.find?_cons_of_neg _ (by simpa using h2), ih]
    · by_cases hk2 : hd.1 = k
      · rw [List.map_cons, if_neg hk,
          List.find?_cons_of_pos _ (by simpa using hk2),
          List.find?_cons_of_pos _ (by simpa using hk2)]
      · rw [List.map_cons, if_neg hk,
          List.find?_cons_of_neg _ (by simpa using hk2),
          List.find?_cons_of_neg _ (by simpa using hk2), ih]

theorem find?_append_single {A : Type} (l : List (String × A)) (k : String)
    (v : A) (h : l.any (fun p => p.1 = k) = false) :
    (l ++ [(k, v)]).find? (fun p => p.1 = k) = some (k, v) := by
  induction l with
  | nil => simp [List.find?]
  | cons hd tl ih =>
    simp only [List.any_cons, Bool.or_eq_false_iff, decide_eq_false_iff_not] at h
    simp [List.find?, h.1, ih h.2]

theorem find?_append_single_ne {A : Type} (l : List (String × A))
    (k' : String) (v : A) (k : String) (hne : ¬ k' = k) :
    (l ++ [(k', v)]).find? (fun p => p.1 = k) = l.find? (fun p => p.1 = k) := by
  induction l with
  | nil => simp [List.find?, hne]
  | cons hd tl ih =>
    by_cases hk : hd.1 = k
    · simp [List.find?, hk]
    · simp [List.find?, hk, ih]

theorem find?_filter_same {A : Type} (l : List (String × A)) (k : String) :
    (l.filter (fun p => ¬ p.1 = k)).find? (fun p => p.1 = k) = none := by
  induction l with
  | nil => rfl
  | cons hd tl ih =>
    by_cases hk : hd.1 = k
    · simp [List.filter, hk, ih]
    · simp [List.filter, List.find?, hk, ih]

theorem find?_filter_ne {A : Type} (l : List (String × A)) (k' k : String)
    (hne : ¬ k' = k) :
    (l.filter (fun p => ¬ p.1 = k')).find? (fun p => p.1 = k) =
      l.find? (fun p => p.1 = k) := by
  induction l with
  | nil => rfl
  | cons hd tl ih =>
    by_cases hk : hd.1 = k'
    · have h2 : ¬ hd.1 = k := by rw [hk]; exact hne
      rw [List.filter_cons_of_neg (by simpa using hk),
        List.find?_cons_of_neg _ (by simpa using h2), ih]
    · by_cases hk2 : hd.1 = k
      · rw [List.filter_cons_of_pos (by simpa using hk),
          List.find?_cons_of_pos _ (by simpa using hk2),
          List.find?_cons_of_pos _ (by simpa using hk2)]
      · rw [List.filter_cons_of_pos (by simpa using hk),
          List.find?_cons_of_neg _ (by simpa using hk2),
          List.find?_cons_of_neg _ (by simpa using hk2), ih]

theorem getAttr_setAttr_same (c : ContainerSt) (k v : String) :
    getAttr (setAttr c k v) k = some v := by
  unfold getAttr setAttr
  by_cases h : c.attrs.any (fun p => p.1 = k) = true
  · simp only [h, if_true]
    rw [find?_replace_same c.attrs k v h]
    rfl
  · simp only [Bool.not_eq_true] at h
    simp only [h, Bool.false_eq_true, if_false]
    rw [find?_append_single c.attrs k v h]
    rfl

theorem getAttr_setAttr_ne (c : ContainerSt) (k' v k : String)
    (hne : ¬ k' = k) :
    getAttr (setAttr c k' v) k = getAttr c k := by
  unfold getAttr setAttr
  by_cases h : c.attrs.any (fun p => p.1 = k') = true
  · simp only [h, if_true]
    rw [find?_replace_ne c.attrs k' v k hne]
  · simp only [Bool.not_eq_true] at h
    simp only [h, Bool.false_eq_true, if_false]
    rw [find?_append_single_ne c.attrs k' v k hne]

theorem getAttr_removeAttr_same (c : ContainerSt) (k : String) :
    getAttr (removeAttr c k) k = none := by
  unfold getAttr removeAttr
  rw [find?_filter_same c.attrs k]
  rfl

theorem getAttr_removeAttr_ne (c : ContainerSt) (k' k : String)
    (hne : ¬ k' = k) :
    getAttr (removeAttr c k') k = getAttr c k := by
  unfold getAttr removeAttr
  rw [find?_filter_ne c.attrs k' k hne]

theorem getAttr_removeChild (c : ContainerSt) (k : String) :
    getAttr (removeChild c) k = getAttr c k := rfl

theorem getAttr_addListener (c : ContainerSt) (e : Ev) (k : String) :
    getAttr (addListener c e) k = getAttr c k := rfl

theorem hasAttr_eq_isSome (c : ContainerSt) (k : String) :
    hasAttr c k = (getAttr c k).isSome := by
  unfold hasAttr getAttr
  induction c.attrs with
  | nil => rfl
  | cons hd tl ih =>
    by_cases hk : hd.1 = k
    · simp [List.find?, hk]
    · simp [List.find?, hk]
      simpa using ih

theorem lookupApp_setApp_same (r : Registry) (name : String)
    (app : AppInterface) :
    lookupApp (setApp r name app) name = some app := by
  unfold lookupApp setApp
  by_cases h : r.any (fun p => p.1 = name) = true
  · simp only [h, if_true]
    rw [find?_replace_same r name app h]
    rfl
  · simp only [Bool.not_eq_true] at h
    simp only [h, Bool.false_eq_true, if_false]
    rw [find?_append_single r name app h]
    rfl

theorem lookupApp_eraseApp_same (r : Registry) (name : String) :
    lookupApp (eraseApp r name) name = none := by
  unfold lookupApp eraseApp
  rw [find?_filter_same r name]
  rfl

theorem setAttr_hasParent (c : ContainerSt) (k v : String) :
    (setAttr c k v).hasParent = c.hasParent := by
  unfold setAttr
  by_cases h : c.attrs.any (fun p => p.1 = k) = true
  · simp [h]
  · simp only [Bool.not_eq_true] at h
    simp [h]

theorem setAttr_listeners (c : ContainerSt) (k v : String) :
    (setAttr c k v).listeners = c.listeners := by
  unfold setAttr
  by_cases h : c.attrs.any (fun p => p.1 = k) = true
  · simp [h]
  · simp only [Bool.not_eq_true] at h
    simp [h]

theorem destroyBranch_hasParent (c : ContainerSt) :
    (destroyBranch c).hasParent = false := by
  unfold destroyBranch
  rcases hv : (if hasAttr c "destroy" then getAttr c "destroy" else none) with _ | v <;>
    rcases hw : (if hasAttr c "destory" then getAttr c "destory" else none) with _ | w <;>
      simp [hv, hw, setAttr_hasParent, removeAttr, removeChild]

theorem destroyBranch_listeners (c : ContainerSt) :
    (destroyBranch c).listeners = c.listeners := by
  unfold destroyBranch
  rcases hv : (if hasAttr c "destroy" then getAttr c "destroy" else none) with _ | v <;>
    rcases hw : (if hasAttr c "destory" then getAttr c "destory" else none) with _ | w <;>
      simp [hv, hw, setAttr_listeners, removeAttr, removeChild]

theorem keepAliveBranch_hasParent (c : ContainerSt) :
    (keepAliveBranch c).hasParent = false := by
  unfold keepAliveBranch
  simp [setAttr_hasParent, removeAttr, removeChild]

theorem keepAliveBranch_listeners (c : ContainerSt) :
    (keepAliveBranch c).listeners = c.listeners := by
  unfold keepAliveBranch
  simp [setAttr_listeners, removeAttr, removeChild]

theorem teardownContainer_hasParent (options : UnmountAppParams)
    (c : ContainerSt) : (teardownContainer options c).hasParent = false := by
  unfold teardownContainer
  by_cases hd : options.destroy = true
  · simp [hd, destroyBranch_hasParent]
  · simp only [Bool.not_eq_true] at hd
    by_cases hc : (options.clearAliveState && hasAttr c "keep-alive") = true
    · simp [hd, hc, keepAliveBranch_hasParent]
    · simp only [Bool.not_eq_true] at hc
      simp [hd, hc, removeChild]

theorem teardownContainer_listeners (options : UnmountAppParams)
    (c : ContainerSt) : (teardownContainer options c).listeners = c.listeners := by
  unfold teardownContainer
  by_cases hd : options.destroy = true
  · simp [hd, destroyBranch_listeners]
  · simp only [Bool.not_eq_true] at hd
    by_cases hc : (options.clearAliveState && hasAttr c "keep-alive") = true
    · simp [hd, hc, keepAliveBranch_listeners]
    · simp only [Bool.not_eq_true] at hc
      simp [hd, hc, removeChild]

theorem destroyBranch_getAttr_destroy (c : ContainerSt) :
    getAttr (destroyBranch c) "destroy" = getAttr c "destroy" := by
  unfold destroyBranch
  by_cases h1 : hasAttr c "destroy" = true
  · have hs : (getAttr c "destroy").isSome = true := by
      rw [← hasAttr_eq_isSome]; exact h1
    obtain ⟨v, hv⟩ := Option.isSome_iff_exists.mp hs
    by_cases h2 : hasAttr c "destory" = true
    · have hs2 : (getAttr c "destory").isSome = true := by
        rw [← hasAttr_eq_isSome]; exact h2
      obtain ⟨w, hw⟩ := Option.isSome_iff_exists.mp hs2
      simp only [h1, h2, if_true, hv, hw]
      rw [getAttr_setAttr_ne _ _ _ _ (by decide), getAttr_setAttr_same]
    · simp only [Bool.not_eq_true] at h2
      simp only [h1, h2, if_true, Bool.false_eq_true, if_false, hv]
      rw [getAttr_setAttr_same]
  · simp only [Bool.not_eq_true] at h1
    have hn : getAttr c "destroy" = none := by
      have := hasAttr_eq_isSome c "destroy"
      rw [h1] at this
      exact Option.not_isSome_iff_eq_none.mp (by rw [← this]; simp)
    by_cases h2 : hasAttr c "destory" = true
    · have hs2 : (getAttr c "destory").isSome = true := by
        rw [← hasAttr_eq_isSome]; exact h2
      obtain ⟨w, hw⟩ := Option.isSome_iff_exists.mp hs2
      simp only [h1, h2, Bool.false_eq_true, if_false, if_true, hw]
      rw [getAttr_setAttr_ne _ _ _ _ (by decide),
        getAttr_removeAttr_same, hn]
    · simp only [Bool.not_eq_true] at h2
      simp only [h1, h2, Bool.false_eq_true, if_false]
      rw [getAttr_removeAttr_same, hn]

theorem destroyBranch_getAttr_destory (c : ContainerSt) :
    getAttr (destroyBranch c) "destory" = getAttr c "destory" := by
  unfold destroyBranch
  by_cases h2 : hasAttr c "destory" = true
  · have hs2 : (getAttr c "destory").isSome = true := by
      rw [← hasAttr_eq_isSome]; exact h2
    obtain ⟨w, hw⟩ := Option.isSome_iff_exists.mp hs2
    by_cases h1 : hasAttr c "destroy" = true
    · have hs : (getAttr c "destroy").isSome = true := by
        rw [← hasAttr_eq_isSome]; exact h1
      obtain ⟨v, hv⟩ := Option.isSome_iff_exists.mp hs
      simp only [h1, h2, if_true, hv, hw]
      rw [getAttr_setAttr_same]
    · simp only [Bool.not_eq_true] at h1
      simp only [h1, h2, if_true, Bool.false_eq_true, if_false, hw]
      rw [getAttr_setAttr_same]
  · simp only [Bool.not_eq_true] at h2
    have hn : getAttr c "destory" = none := by
      have := hasAttr_eq_isSome c "destory"
      rw [h2] at this
      exact Option.not_isSome_iff_eq_none.mp (by rw [← this]; simp)
    by_cases h1 : hasAttr c "destroy" = true
    · have hs : (getAttr c "destroy").isSome = true := by
        rw [← hasAttr_eq_isSome]; exact h1
      obtain ⟨v, hv⟩ := Option.isSome_iff_exists.mp hs
      simp only [h1, h2, if_true, Bool.false_eq_true, if_false, hv]
      rw [getAttr_setAttr_ne _ _ _ _ (by decide),
        getAttr_removeAttr_ne _ _ _ (by decide), getAttr_removeChild,
        getAttr_setAttr_ne _ _ _ _ (by decide), hn]
    · simp only [Bool.not_eq_true] at h1
      simp only [h1, h2, Bool.false_eq_true, if_false]
      rw [getAttr_removeAttr_ne _ _ _ (by decide), getAttr_removeChild,
        getAttr_setAttr_ne _ _ _ _ (by decide), hn]

theorem destroyBranch_getAttr_other (c : ContainerSt) (k : String)
    (hk1 : ¬ "destroy" = k) (hk2 : ¬ "destory" = k) :
    getAttr (destroyBranch c) k = getAttr c k := by
  unfold destroyBranch
  rcases hv : (if hasAttr c "destroy" then getAttr c "destroy" else none)
      with _ | v <;>
    rcases hw : (if hasAttr c "destory" then getAttr c "destory" else none)
        with _ | w <;>
      simp only [hv, hw]
  · rw [getAttr_removeAttr_ne _ _ _ hk1, getAttr_removeChild,
      getAttr_setAttr_ne _ _ _ _ hk1]
  · rw [getAttr_setAttr_ne _ _ _ _ hk2, getAttr_removeAttr_ne _ _ _ hk1,
      getAttr_removeChild, getAttr_setAttr_ne _ _ _ _ hk1]
  · rw [getAttr_setAttr_ne _ _ _ _ hk1, getAttr_removeAttr_ne _ _ _ hk1,
      getAttr_removeChild, getAttr_setAttr_ne _ _ _ _ hk1]
  · rw [getAttr_setAttr_ne _ _ _ _ hk2, getAttr_setAttr_ne _ _ _ _ hk1,
      getAttr_removeAttr_ne _ _ _ hk1, getAttr_removeChild,
      getAttr_setAttr_ne _ _ _ _ hk1]

theorem fireEvents_no_listeners (c : ContainerSt) (n : Nat) (evs : List Ev)
    (h : c.listeners = []) : fireEvents (c, n) evs = (c, n) := by
  induction evs with
  | nil => rfl
  | cons e rest ih =>
    have : fireEvent (c, n) e = (c, n) := by
      unfold fireEvent
      simp [h]
    simp [fireEvents, List.foldl_cons, this]
    simpa [fireEvents] using ih

theorem handlerBody_listeners_empty (c : ContainerSt)
    (h : c.listeners = [Ev.unmountEv, Ev.afterhiddenEv]) :
    (handlerBody c).listeners = [] := by
  unfold handlerBody removeListener
  simp [h]

theorem fireEvents_setup_cons (c : ContainerSt)
    (h : c.listeners = [Ev.unmountEv, Ev.afterhiddenEv]) (e : Ev)
    (evs : List Ev) :
    fireEvents (c, 0) (e :: evs) = (handlerBody c, 1) := by
  have hmem : e ∈ c.listeners := by
    rw [h]; cases e <;> simp
  have hfe : fireEvent (c, 0) e = (handlerBody c, 1) := by
    unfold fireEvent
    simp [hmem]
  have : fireEvents (c, 0) (e :: evs) = fireEvents (handlerBody c, 1) evs := by
    simp [fireEvents, List.foldl_cons, hfe]
  rw [this, fireEvents_no_listeners _ _ _ (handlerBody_listeners_empty c h)]

theorem run_seq (p q : Proc) : (Proc.seq p q).run = p.run ++ q.run := by
  induction p with
  | done => rfl
  | emit t k ih => simp [Proc.seq, Proc.run, ih]
  | waitEv n k ih => simp [Proc.seq, Proc.run, ih]

/-- The reference sequential schedule: the complete trace of application
`n` (up to and including its resolution), then the chain for the remaining
names against the registry that call left behind. -/
def seqChain (fmt : String → String) (options : UnmountAppParams) :
    List String → Registry → List TraceItem
  | [], _ => []
  | n :: rest, r =>
    (unmountApp fmt r n options).proc.run ++
      seqChain fmt options rest (unmountApp fmt r n options).registry

theorem unmountAllProcGo_run (fmt : String → String)
    (options : UnmountAppParams) (names : List String) (pre : Proc)
    (r : Registry) :
    (unmountAllProcGo fmt options names pre r).1.run =
      pre.run ++ seqChain fmt options names r := by
  induction names generalizing pre r with
  | nil => simp [unmountAllProcGo, seqChain]
  | cons n rest ih =>
    simp [unmountAllProcGo, seqChain, ih, run_seq, List.append_assoc]

theorem foldl_push_filter (b : Bool) (r : Registry) (acc : List String) :
    r.foldl
      (fun acc p => if isActiveApp b p.2 then acc ++ [p.1] else acc) acc =
      acc ++ (r.filter (fun p => isActiveApp b p.2)).map (fun p => p.1) := by
  induction r generalizing acc with
  | nil => simp
  | cons hd tl ih =>
    by_cases h : isActiveApp b hd.2 = true
    · simp [h, ih, List.filter_cons_of_pos h]
    · simp only [Bool.not_eq_true] at h
      have hf : List.filter (fun p => isActiveApp b p.2) (hd :: tl) =
          List.filter (fun p => isActiveApp b p.2) tl :=
        List.filter_cons_of_neg (by simp [h])
      simp [h, ih, hf]

theorem isActiveApp_iff (b : Bool) (app : AppInterface) :
    isActiveApp b app = true ↔
      (¬ app.state = AppState.UNMOUNT ∧ app.isPrefetch = false ∧
        (b = true →
          ¬ app.keepAliveState = KeepAliveState.KEEP_ALIVE_HIDDEN)) := by
  unfold isActiveApp
  cases b
  · simp [Bool.and_eq_true]
    try tauto
  · simp [Bool.and_eq_true]
    try tauto

theorem map_fst_replace (r : Registry) (name : String) (app : AppInterface) :
    (r.map (fun p => if p.1 = name then (name, app) else p)).map
      (fun p => p.1) = r.map (fun p => p.1) := by
  rw [List.map_map]
  apply List.map_congr_left
  intro p _
  by_cases hp : p.1 = name
  · simp [hp]
  · simp [hp]

/-- Claim C4: for every registry state, `getActiveApps` returns exactly the
names of applications whose lifecycle state is not `UNMOUNT` and whose
`isPrefetch` flag is false, in registry order; with `excludeHiddenApp =
true` it additionally excludes applications whose keep-alive state is
`KEEP_ALIVE_HIDDEN`, and with `false` (the default) it includes them: the
`b = true →` guard in the filter below is vacuous at `b = false`. -/
theorem getActiveApps_spec (r : Registry) (b : Bool) :
    getActiveApps r b =
      (r.filter (fun p =>
        decide (¬ p.2.state = AppState.UNMOUNT ∧ p.2.isPrefetch = false ∧
          (b = true →
            ¬ p.2.keepAliveState = KeepAliveState.KEEP_ALIVE_HIDDEN)))).map
        (fun p => p.1) := by
  unfold getActiveApps
  rw [foldl_push_filter]
  rw [List.nil_append]
  congr 1
  apply List.filter_congr
  intro p _
  apply Bool.eq_iff_iff.mpr
  rw [isActiveApp_iff, decide_eq_true_iff]

/-- Claim C9: `getAllApps` returns the full ordered sequence of registered
application names in insertion order, with no filtering: it is the key
sequence of the registry, of the same length as the registry, and a
`Map.set` extends it with the new name exactly when the name is new
(otherwise the order is unchanged), so the sequence lists names in the
order entries were first added. -/
theorem getAllApps_spec (r : Registry) (name : String) (app : AppInterface) :
    getAllApps r = r.map (fun p => p.1) ∧
    (getAllApps r).length = r.length ∧
    getAllApps (setApp r name app) =
      (if name ∈ getAllApps r then getAllApps r
       else getAllApps r ++ [name]) := by
  refine ⟨rfl, by simp [getAllApps], ?_⟩
  unfold getAllApps setApp
  by_cases h : r.any (fun p => p.1 = name) = true
  · have hmem : name ∈ r.map (fun p => p.1) := by
      simp only [List.any_eq_true, decide_eq_true_eq] at h
      obtain ⟨p, hp, he⟩ := h
      exact List.mem_map.mpr ⟨p, hp, he⟩
    rw [if_pos h, if_pos hmem]
    exact map_fst_replace r name app
  · have hmem : ¬ name ∈ r.map (fun p => p.1) := by
      intro hc
      apply h
      obtain ⟨p, hp, he⟩ := List.mem_map.mp hc
      simp only [List.any_eq_true, decide_eq_true_eq]
      exact ⟨p, hp, he⟩
    rw [if_neg h, if_neg hmem]
    simp

/-- Claim C6: for every name whose normalized form (`formatAppName`, here
the abstract `fmt`) is not present in the Registry, `unmountApp` leaves
the registry untouched, logs a warning, and resolves its promise
successfully and synchronously (the process emits the warning and the
resolution, with no suspension and no rejection — the model's promise has
no rejection at all). -/
theorem unmountApp_missing_spec (fmt : String → String) (r : Registry)
    (appName : String) (options : UnmountAppParams)
    (h : lookupApp r (fmt appName) = none) :
    (unmountApp fmt r appName options).registry = r ∧
    (unmountApp fmt r appName options).outcome = UnmountOutcome.missing ∧
    (unmountApp fmt r appName options).proc =
      Proc.emit (TraceItem.warnStep appName)
        (Proc.emit (TraceItem.resolveStep appName) Proc.done) := by
  have hred : unmountApp fmt r appName options =
      { registry := r
        container := none
        outcome := UnmountOutcome.missing
        proc := Proc.emit (TraceItem.warnStep appName)
          (Proc.emit (TraceItem.resolveStep appName) Proc.done) } := by
    simp [unmountApp, h]
  rw [hred]
  exact ⟨rfl, rfl, rfl⟩

/-- Witness for C6 at a concrete input: the registry holds `app-a` only,
and unmounting the unknown `app-b` is a warning plus immediate resolve. -/
theorem unmountApp_missing_witness :
    (unmountApp id
      [("app-a",
        { state := AppState.MOUNTED, keepAliveState := KeepAliveState.NONE,
          isPrefetch := false, hasSandbox := true, hasBus := true,
          container := none })]
      "app-b" {}).registry =
      [("app-a",
        { state := AppState.MOUNTED, keepAliveState := KeepAliveState.NONE,
          isPrefetch := false, hasSandbox := true, hasBus := true,
          container := none })] ∧
    (unmountApp id
      [("app-a",
        { state := AppState.MOUNTED, keepAliveState := KeepAliveState.NONE,
          isPrefetch := false, hasSandbox := true, hasBus := true,
          container := none })]
      "app-b" {}).outcome = UnmountOutcome.missing := by
  have h := unmountApp_missing_spec id
    [("app-a",
      { state := AppState.MOUNTED, keepAliveState := KeepAliveState.NONE,
        isPrefetch := false, hasSandbox := true, hasBus := true,
        container := none })]
    "app-b" {} (by decide)
  exact ⟨h.1, h.2.1⟩

/-- Claim C5: for every registered application already in `UNMOUNT` state
or flagged `isPrefetch`, `unmountApp` with `destroy: true` fully destroys
it — `actionsForCompletelyDestroy` (spec-modelled: releases Sandbox
Context and Bus) removes the Registry entry — and then resolves
synchronously; with `destroy` absent or false it is a no-op whose promise
resolves immediately, with no registry or container change. -/
theorem unmountApp_unmount_or_prefetch_spec (fmt : String → String)
    (r : Registry) (appName : String) (app : AppInterface)
    (options : UnmountAppParams)
    (hlook : lookupApp r (fmt appName) = some app)
    (hcond : app.state = AppState.UNMOUNT ∨ app.isPrefetch = true) :
    (options.destroy = true →
      (unmountApp fmt r appName options).registry =
        actionsForCompletelyDestroy r (fmt appName) ∧
      lookupApp (unmountApp fmt r appName options).registry
        (fmt appName) = none ∧
      (unmountApp fmt r appName options).outcome =
        UnmountOutcome.completelyDestroyed ∧
      (unmountApp fmt r appName options).proc =
        Proc.emit (TraceItem.destroyStep (fmt appName))
          (Proc.emit (TraceItem.resolveStep (fmt appName)) Proc.done)) ∧
    (options.destroy = false →
      (unmountApp fmt r appName options).registry = r ∧
      (unmountApp fmt r appName options).container = app.container ∧
      (unmountApp fmt r appName options).outcome = UnmountOutcome.noop ∧
      (unmountApp fmt r appName options).proc =
        Proc.emit (TraceItem.resolveStep (fmt appName)) Proc.done) := by
  have h1 : (decide (app.state = AppState.UNMOUNT) || app.isPrefetch) = true := by
    rcases hcond with h | h
    · simp [h]
    · simp [h]
  constructor
  · intro hd
    have hred : unmountApp fmt r appName options =
        { registry := actionsForCompletelyDestroy r (fmt appName)
          container := app.container
          outcome := UnmountOutcome.completelyDestroyed
          proc := Proc.emit (TraceItem.destroyStep (fmt appName))
            (Proc.emit (TraceItem.resolveStep (fmt appName)) Proc.done) } := by
      simp [unmountApp, hlook, h1, hd, actionsForCompletelyDestroy]
    rw [hred]
    exact ⟨rfl, lookupApp_eraseApp_same r (fmt appName), rfl, rfl⟩
  · intro hd
    have hred : unmountApp fmt r appName options =
        { registry := r
          container := app.container
          outcome := UnmountOutcome.noop
          proc := Proc.emit (TraceItem.resolveStep (fmt appName))
            Proc.done } := by
      simp [unmountApp, hlook, h1, hd]
    rw [hred]
    exact ⟨rfl, rfl, rfl, rfl⟩

/-- Claim C1: for every registered application in `KEEP_ALIVE_HIDDEN`
state, `unmountApp` with `destroy: true` performs the full release —
spec-modelled `app.unmount(true, resolve)` deletes the Registry entry
(releasing its resources with it) — regardless of `clearAliveState` (the
first conjunct does not consult it); with `destroy` absent/false and
`clearAliveState: true` the hidden keep-alive state is cleared while the
Registry entry and the Sandbox Context (and Bus) are retained; with both
flags absent/false the call is a no-op whose promise resolves
immediately. -/
theorem unmountApp_keep_alive_hidden_spec (fmt : String → String)
    (r : Registry) (appName : String) (app : AppInterface)
    (options : UnmountAppParams)
    (hlook : lookupApp r (fmt appName) = some app)
    (hstate : ¬ app.state = AppState.UNMOUNT)
    (hpre : app.isPrefetch = false)
    (hhid : app.keepAliveState = KeepAliveState.KEEP_ALIVE_HIDDEN) :
    (options.destroy = true →
      (unmountApp fmt r appName options).registry = eraseApp r (fmt appName) ∧
      lookupApp (unmountApp fmt r appName options).registry
        (fmt appName) = none ∧
      (unmountApp fmt r appName options).outcome =
        UnmountOutcome.hiddenDestroyed) ∧
    (options.destroy = false → options.clearAliveState = true →
      (unmountApp fmt r appName options).outcome =
        UnmountOutcome.hiddenCleared ∧
      ∃ app',
        lookupApp (unmountApp fmt r appName options).registry
          (fmt appName) = some app' ∧
        app'.keepAliveState = KeepAliveState.NONE ∧
        app'.state = AppState.UNMOUNT ∧
        app'.hasSandbox = app.hasSandbox ∧
        app'.hasBus = app.hasBus) ∧
    (options.destroy = false → options.clearAliveState = false →
      (unmountApp fmt r appName options).registry = r ∧
      (unmountApp fmt r appName options).outcome = UnmountOutcome.noop ∧
      (unmountApp fmt r appName options).proc =
        Proc.emit (TraceItem.resolveStep (fmt appName)) Proc.done) := by
  have h1 : (decide (app.state = AppState.UNMOUNT) || app.isPrefetch) = false := by
    simp [hstate, hpre]
  refine ⟨?_, ?_, ?_⟩
  · intro hd
    have hred : unmountApp fmt r appName options =
        { registry := eraseApp r (fmt appName)
          container := app.container
          outcome := UnmountOutcome.hiddenDestroyed
          proc := Proc.emit (TraceItem.hiddenUnmountStep (fmt appName) true)
            (Proc.waitEv (fmt appName)
              (Proc.emit (TraceItem.resolveStep (fmt appName)) Proc.done)) } := by
      simp [unmountApp, hlook, h1, hhid, hd, hiddenUnmount]
    rw [hred]
    exact ⟨rfl, lookupApp_eraseApp_same r (fmt appName), rfl⟩
  · intro hd hc
    have hred : unmountApp fmt r appName options =
        { registry := setApp r (fmt appName)
            { app with
              state := AppState.UNMOUNT
              keepAliveState := KeepAliveState.NONE }
          container := app.container
          outcome := UnmountOutcome.hiddenCleared
          proc := Proc.emit (TraceItem.hiddenUnmountStep (fmt appName) false)
            (Proc.waitEv (fmt appName)
              (Proc.emit (TraceItem.resolveStep (fmt appName)) Proc.done)) } := by
      simp [unmountApp, hlook, h1, hhid, hd, hc, hiddenUnmount]
    rw [hred]
    refine ⟨rfl, ?_⟩
    exact ⟨{ app with
        state := AppState.UNMOUNT
        keepAliveState := KeepAliveState.NONE },
      lookupApp_setApp_same r (fmt appName) _, rfl, rfl, rfl, rfl⟩
  · intro hd hc
    have hred : unmountApp fmt r appName options =
        { registry := r
          container := app.container
          outcome := UnmountOutcome.noop
          proc := Proc.emit (TraceItem.resolveStep (fmt appName))
            Proc.done } := by
      simp [unmountApp, hlook, h1, hhid, hd, hc]
    rw [hred]
    exact ⟨rfl, rfl, rfl⟩

/-- Sample hidden keep-alive application used by the C1 witness. -/
def hiddenSampleApp : AppInterface :=
  { state := AppState.MOUNTED,
    keepAliveState := KeepAliveState.KEEP_ALIVE_HIDDEN,
    isPrefetch := false, hasSandbox := true, hasBus := true,
    container := none }

/-- Witness for C1 at a concrete input: one hidden keep-alive app named
`app-k`; with `destroy` its entry is gone; with `clearAliveState` only,
the entry survives with the hidden state cleared; with neither, nothing
changes. -/
theorem unmountApp_keep_alive_hidden_witness :
    (unmountApp id [("app-k", hiddenSampleApp)] "app-k"
      { destroy := true, clearAliveState := false }).outcome =
      UnmountOutcome.hiddenDestroyed ∧
    (unmountApp id [("app-k", hiddenSampleApp)] "app-k"
      { destroy := false, clearAliveState := true }).outcome =
      UnmountOutcome.hiddenCleared ∧
    (unmountApp id [("app-k", hiddenSampleApp)] "app-k"
      { destroy := false, clearAliveState := false }).outcome =
      UnmountOutcome.noop := by
  refine ⟨?_, ?_, ?_⟩
  · exact ((unmountApp_keep_alive_hidden_spec id
      [("app-k", hiddenSampleApp)] "app-k" hiddenSampleApp
      { destroy := true, clearAliveState := false }
      (by decide) (by decide) (by decide) (by decide)).1 rfl).2.2
  · exact ((unmountApp_keep_alive_hidden_spec id
      [("app-k", hiddenSampleApp)] "app-k" hiddenSampleApp
      { destroy := false, clearAliveState := true }
      (by decide) (by decide) (by decide) (by decide)).2.1 rfl rfl).1
  · exact ((unmountApp_keep_alive_hidden_spec id
      [("app-k", hiddenSampleApp)] "app-k" hiddenSampleApp
      { destroy := false, clearAliveState := false }
      (by decide) (by decide) (by decide) (by decide)).2.2 rfl rfl).2.1

/-- Sample prefetched application used by the C5 witness. -/
def prefetchSampleApp : AppInterface :=
  { state := AppState.CREATED, keepAliveState := KeepAliveState.NONE,
    isPrefetch := true, hasSandbox := true, hasBus := true,
    container := none }

/-- Witness for C5 at a concrete input: a prefetched app named `app-p`;
`destroy: true` removes the entry, `destroy` absent keeps everything. -/
theorem unmountApp_unmount_or_prefetch_witness :
    (unmountApp id [("app-p", prefetchSampleApp)] "app-p"
      { destroy := true }).registry = [] ∧
    (unmountApp id [("app-p", prefetchSampleApp)] "app-p" {}).registry =
      [("app-p", prefetchSampleApp)] := by
  constructor
  · have h := (unmountApp_unmount_or_prefetch_spec id
      [("app-p", prefetchSampleApp)] "app-p" prefetchSampleApp
      { destroy := true } (by decide) (Or.inr (by decide))).1 rfl
    rw [h.1]
    decide
  · exact ((unmountApp_unmount_or_prefetch_spec id
      [("app-p", prefetchSampleApp)] "app-p" prefetchSampleApp
      {} (by decide) (Or.inr (by decide))).2 rfl).1

/-- Claim C2: for every mounted, visible application destroyed via
`unmountApp` with `destroy: true`, after the teardown the container's
`destroy` marker attribute and the legacy misspelled `destory` variant
hold exactly their prior values (whether present singly, both, or
absent); when no prior value existed, the temporarily set canonical
`destroy` marker does not persist (the attribute is absent again), and
the container has been detached from its parent. -/
theorem unmountApp_destroy_marker_restoration (fmt : String → String)
    (r : Registry) (appName : String) (app : AppInterface)
    (c : ContainerSt) (options : UnmountAppParams)
    (hlook : lookupApp r (fmt appName) = some app)
    (hstate : ¬ app.state = AppState.UNMOUNT)
    (hpre : app.isPrefetch = false)
    (hka : ¬ app.keepAliveState = KeepAliveState.KEEP_ALIVE_HIDDEN)
    (hc : app.container = some c)
    (hd : options.destroy = true) :
    ∃ c', (unmountApp fmt r appName options).container = some c' ∧
      getAttr c' "destroy" = getAttr c "destroy" ∧
      getAttr c' "destory" = getAttr c "destory" ∧
      c'.hasParent = false := by
  have h1 : (decide (app.state = AppState.UNMOUNT) || app.isPrefetch) = false := by
    simp [hstate, hpre]
  have hred : (unmountApp fmt r appName options).container =
      some (teardownContainer options
        (addListener (addListener c Ev.unmountEv) Ev.afterhiddenEv)) := by
    simp [unmountApp, hlook, h1, hka, hc]
  have ht : teardownContainer options
      (addListener (addListener c Ev.unmountEv) Ev.afterhiddenEv) =
      destroyBranch (addListener (addListener c Ev.unmountEv)
        Ev.afterhiddenEv) := by
    simp [teardownContainer, hd]
  refine ⟨_, hred, ?_, ?_, ?_⟩ <;> rw [ht]
  · rw [destroyBranch_getAttr_destroy]
    rfl
  · rw [destroyBranch_getAttr_destory]
    rfl
  · exact destroyBranch_hasParent _

/-- Sample mounted container and application used by the C2 witness: it
carries a prior `destroy` marker and a prior legacy `destory` marker. -/
def markedContainer : ContainerSt :=
  { attrs := [("destroy", "keep-me"), ("destory", "legacy"), ("x", "y")],
    hasParent := true, listeners := [] }

/-- Sample mounted visible application owning `markedContainer`. -/
def markedApp : AppInterface :=
  { state := AppState.MOUNTED, keepAliveState := KeepAliveState.NONE,
    isPrefetch := false, hasSandbox := true, hasBus := true,
    container := some markedContainer }

/-- Witness for C2 at a concrete input: both marker attributes survive the
destructive teardown with their prior values, and the container is
detached. -/
theorem unmountApp_destroy_marker_restoration_witness :
    ∃ c', (unmountApp id [("app-m", markedApp)] "app-m"
        { destroy := true }).container = some c' ∧
      getAttr c' "destroy" = some "keep-me" ∧
      getAttr c' "destory" = some "legacy" ∧
      c'.hasParent = false := by
  obtain ⟨c', h1, h2, h3, h4⟩ := unmountApp_destroy_marker_restoration id
    [("app-m", markedApp)] "app-m" markedApp markedContainer
    { destroy := true } (by decide) (by decide) (by decide) (by decide)
    (by decide) rfl
  refine ⟨c', h1, ?_, ?_, h4⟩
  · rw [h2]; decide
  · rw [h3]; decide

/-- Claim C10: for every mounted, visible application, when `unmountApp`
is called with both `destroy: true` and `clearAliveState: true`, the
destroy branch takes precedence: the container is processed by the
destroy-marker handling (`destroyBranch`) and the keep-alive
attribute-restoration branch is skipped, so the container's `keep-alive`
attribute is exactly what it was before the call. -/
theorem unmountApp_destroy_precedence (fmt : String → String)
    (r : Registry) (appName : String) (app : AppInterface)
    (c : ContainerSt) (options : UnmountAppParams)
    (hlook : lookupApp r (fmt appName) = some app)
    (hstate : ¬ app.state = AppState.UNMOUNT)
    (hpre : app.isPrefetch = false)
    (hka : ¬ app.keepAliveState = KeepAliveState.KEEP_ALIVE_HIDDEN)
    (hc : app.container = some c)
    (hd : options.destroy = true)
    (_hcs : options.clearAliveState = true) :
    ∃ c', (unmountApp fmt r appName options).container = some c' ∧
      c' = destroyBranch (addListener (addListener c Ev.unmountEv)
        Ev.afterhiddenEv) ∧
      getAttr c' "keep-alive" = getAttr c "keep-alive" := by
  have h1 : (decide (app.state = AppState.UNMOUNT) || app.isPrefetch) = false := by
    simp [hstate, hpre]
  have hred : (unmountApp fmt r appName options).container =
      some (teardownContainer options
        (addListener (addListener c Ev.unmountEv) Ev.afterhiddenEv)) := by
    simp [unmountApp, hlook, h1, hka, hc]
  have ht : teardownContainer options
      (addListener (addListener c Ev.unmountEv) Ev.afterhiddenEv) =
      destroyBranch (addListener (addListener c Ev.unmountEv)
        Ev.afterhiddenEv) := by
    simp [teardownContainer, hd]
  refine ⟨_, hred, ht, ?_⟩
  rw [ht, destroyBranch_getAttr_other _ "keep-alive" (by decide) (by decide)]
  rfl

/-- Sample mounted container with `keep-alive` marker for the C10 witness. -/
def keepAliveMarkedContainer : ContainerSt :=
  { attrs := [("keep-alive", "on")], hasParent := true, listeners := [] }

/-- Sample mounted visible application owning `keepAliveMarkedContainer`. -/
def keepAliveMarkedApp : AppInterface :=
  { state := AppState.MOUNTED, keepAliveState := KeepAliveState.NONE,
    isPrefetch := false, hasSandbox := true, hasBus := true,
    container := some keepAliveMarkedContainer }

/-- Witness for C10 at a concrete input: with both flags set, the
`keep-alive` attribute is untouched by the destroy teardown. -/
theorem unmountApp_destroy_precedence_witness :
    ∃ c', (unmountApp id [("app-q", keepAliveMarkedApp)] "app-q"
        { destroy := true, clearAliveState := true }).container = some c' ∧
      getAttr c' "keep-alive" = some "on" := by
  obtain ⟨c', h1, h2, h3⟩ := unmountApp_destroy_precedence id
    [("app-q", keepAliveMarkedApp)] "app-q" keepAliveMarkedApp
    keepAliveMarkedContainer { destroy := true, clearAliveState := true }
    (by decide) (by decide) (by decide) (by decide) (by decide) rfl rfl
  refine ⟨c', h1, ?_⟩
  rw [h3]
  decide

/-- Counterexample to C7 as stated: not every unmount path of
`unmountApp` waits for a container `unmount`/`afterhidden` event before
resolving.  For an application already in the `UNMOUNT` state and no
`destroy` flag, the call resolves synchronously: its whole observable
behavior is the single resolution, with no event fired, no listener
attached and no suspension. -/
theorem unmountApp_waits_counterexample :
    (unmountApp id
      [("app-u",
        { state := AppState.UNMOUNT, keepAliveState := KeepAliveState.NONE,
          isPrefetch := false, hasSandbox := true, hasBus := true,
          container := none })]
      "app-u" {}).proc.run = [TraceItem.resolveStep "app-u"] ∧
    ¬ TraceItem.eventFired "app-u" ∈
      (unmountApp id
        [("app-u",
          { state := AppState.UNMOUNT, keepAliveState := KeepAliveState.NONE,
            isPrefetch := false, hasSandbox := true, hasBus := true,
            container := none })]
        "app-u" {}).proc.run := by
  constructor
  · rfl
  · decide

/-- Claim C7 (amended): every unmount path that tears down a mounted,
visible application's container waits for the container's `unmount` or
`afterhidden` event before resolving; the listeners for both events are
attached before the teardown (container removal) is requested — visible
in the trace, where both `addL` items precede the `removeChildStep` and
the resolution follows the event — and whichever of the two events fires
first removes both listeners, so across any sequence of event dispatches
the promise resolves at most once, exactly once when some event fires,
and no listener remains attached afterwards. -/
theorem unmountApp_listener_protocol (fmt : String → String)
    (r : Registry) (appName : String) (app : AppInterface)
    (c : ContainerSt) (options : UnmountAppParams)
    (hlook : lookupApp r (fmt appName) = some app)
    (hstate : ¬ app.state = AppState.UNMOUNT)
    (hpre : app.isPrefetch = false)
    (hka : ¬ app.keepAliveState = KeepAliveState.KEEP_ALIVE_HIDDEN)
    (hc : app.container = some c)
    (hl : c.listeners = []) :
    (unmountApp fmt r appName options).proc.run =
      [TraceItem.addL (fmt appName) Ev.unmountEv,
       TraceItem.addL (fmt appName) Ev.afterhiddenEv,
       TraceItem.removeChildStep (fmt appName),
       TraceItem.eventFired (fmt appName),
       TraceItem.remL (fmt appName) Ev.unmountEv,
       TraceItem.remL (fmt appName) Ev.afterhiddenEv,
       TraceItem.resolveStep (fmt appName)] ∧
    ∃ c', (unmountApp fmt r appName options).container = some c' ∧
      c'.listeners = [Ev.unmountEv, Ev.afterhiddenEv] ∧
      (∀ evs : List Ev, (fireEvents (c', 0) evs).2 ≤ 1) ∧
      (∀ evs : List Ev, ¬ evs = [] →
        (fireEvents (c', 0) evs).2 = 1 ∧
        (fireEvents (c', 0) evs).1.listeners = []) := by
  have h1 : (decide (app.state = AppState.UNMOUNT) || app.isPrefetch) = false := by
    simp [hstate, hpre]
  have hproc : (unmountApp fmt r appName options).proc =
      Proc.emit (TraceItem.addL (fmt appName) Ev.unmountEv)
        (Proc.emit (TraceItem.addL (fmt appName) Ev.afterhiddenEv)
          (Proc.emit (TraceItem.removeChildStep (fmt appName))
            (Proc.waitEv (fmt appName)
              (Proc.emit (TraceItem.remL (fmt appName) Ev.unmountEv)
                (Proc.emit (TraceItem.remL (fmt appName) Ev.afterhiddenEv)
                  (Proc.emit (TraceItem.resolveStep (fmt appName))
                    Proc.done)))))) := by
    simp [unmountApp, hlook, h1, hka, hc]
  have hcont : (unmountApp fmt r appName options).container =
      some (teardownContainer options
        (addListener (addListener c Ev.unmountEv) Ev.afterhiddenEv)) := by
    simp [unmountApp, hlook, h1, hka, hc]
  constructor
  · rw [hproc]
    rfl
  · refine ⟨_, hcont, ?_, ?_, ?_⟩
    · rw [teardownContainer_listeners]
      simp [addListener, hl]
    · intro evs
      cases evs with
      | nil => exact Nat.zero_le 1
      | cons e rest =>
        rw [fireEvents_setup_cons _ ?_ e rest]
        rw [teardownContainer_listeners]
        simp [addListener, hl]
    · intro evs hne
      cases evs with
      | nil => exact absurd rfl hne
      | cons e rest =>
        have hls : (teardownContainer options
            (addListener (addListener c Ev.unmountEv)
              Ev.afterhiddenEv)).listeners =
            [Ev.unmountEv, Ev.afterhiddenEv] := by
          rw [teardownContainer_listeners]
          simp [addListener, hl]
        rw [fireEvents_setup_cons _ hls e rest]
        exact ⟨rfl, handlerBody_listeners_empty _ hls⟩

/-- Sample mounted container with no prior listeners for the C7 witness. -/
def plainContainer : ContainerSt :=
  { attrs := [("keep-alive", "on")], hasParent := true, listeners := [] }

/-- Sample mounted visible application owning `plainContainer`. -/
def plainApp : AppInterface :=
  { state := AppState.MOUNTED, keepAliveState := KeepAliveState.NONE,
    isPrefetch := false, hasSandbox := true, hasBus := true,
    container := some plainContainer }

/-- Witness for the amended C7 at a concrete input: for a plain unmount of
a mounted visible app, the post-setup container dispatching `afterhidden`
then `unmount` resolves exactly once, with no listener left. -/
theorem unmountApp_listener_protocol_witness :
    ∃ c', (unmountApp id [("app-v", plainApp)] "app-v" {}).container =
        some c' ∧
      (fireEvents (c', 0) [Ev.afterhiddenEv, Ev.unmountEv]).2 = 1 ∧
      (fireEvents (c', 0) [Ev.afterhiddenEv, Ev.unmountEv]).1.listeners =
        [] := by
  obtain ⟨-, c', h1, -, -, h4⟩ := unmountApp_listener_protocol id
    [("app-v", plainApp)] "app-v" plainApp plainContainer {}
    (by decide) (by decide) (by decide) (by decide) rfl rfl
  obtain ⟨ha, hb⟩ := h4 [Ev.afterhiddenEv, Ev.unmountEv] (by decide)
  exact ⟨c', h1, ha, hb⟩

/-- Claim C3: `unmountAllApps` processes the N registered applications
strictly sequentially in Registry (insertion) order.  The trace of the
`reduce`-built promise chain equals `seqChain`: the complete trace of
application 1 (through its resolution), then application 2 against the
registry application 1 left behind, and so on — no interleaving.  The
second conjunct shows every `unmountApp` trace ends with its resolution,
so in the concatenation application i+1's first operation comes strictly
after application i's promise has resolved (which on the event-waiting
paths happens only after its `unmount`/`afterhidden` event has fired). -/
theorem unmountAllApps_sequential (fmt : String → String) (r : Registry)
    (options : UnmountAppParams) :
    (unmountAllApps fmt r options).1.run =
      seqChain fmt options (getAllApps r) r ∧
    ∀ (r' : Registry) (n : String), ∃ (t : List TraceItem) (s : String),
      (unmountApp fmt r' n options).proc.run =
        t ++ [TraceItem.resolveStep s] := by
  constructor
  · unfold unmountAllApps
    rw [unmountAllProcGo_run]
    rfl
  · intro r' n
    cases hl : lookupApp r' (fmt n) with
    | none =>
      have hp : (unmountApp fmt r' n options).proc =
          Proc.emit (TraceItem.warnStep n)
            (Proc.emit (TraceItem.resolveStep n) Proc.done) := by
        simp [unmountApp, hl]
      exact ⟨[TraceItem.warnStep n], n, by rw [hp]; rfl⟩
    | some app =>
      by_cases h1 : (decide (app.state = AppState.UNMOUNT) ||
          app.isPrefetch) = true
      · by_cases hd : options.destroy = true
        · have hp : (unmountApp fmt r' n options).proc =
              Proc.emit (TraceItem.destroyStep (fmt n))
                (Proc.emit (TraceItem.resolveStep (fmt n)) Proc.done) := by
            simp [unmountApp, hl, h1, hd]
          exact ⟨[TraceItem.destroyStep (fmt n)], fmt n, by rw [hp]; rfl⟩
        · simp only [Bool.not_eq_true] at hd
          have hp : (unmountApp fmt r' n options).proc =
              Proc.emit (TraceItem.resolveStep (fmt n)) Proc.done := by
            simp [unmountApp, hl, h1, hd]
          exact ⟨[], fmt n, by rw [hp]; rfl⟩
      · simp only [Bool.not_eq_true] at h1
        by_cases hk : app.keepAliveState = KeepAliveState.KEEP_ALIVE_HIDDEN
        · by_cases hd : options.destroy = true
          · have hp : (unmountApp fmt r' n options).proc =
                Proc.emit (TraceItem.hiddenUnmountStep (fmt n) true)
                  (Proc.waitEv (fmt n)
                    (Proc.emit (TraceItem.resolveStep (fmt n))
                      Proc.done)) := by
              simp [unmountApp, hl, h1, hk, hd]
            exact ⟨[TraceItem.hiddenUnmountStep (fmt n) true,
              TraceItem.eventFired (fmt n)], fmt n, by rw [hp]; rfl⟩
          · simp only [Bool.not_eq_true] at hd
            by_cases hc : options.clearAliveState = true
            · have hp : (unmountApp fmt r' n options).proc =
                  Proc.emit (TraceItem.hiddenUnmountStep (fmt n) false)
                    (Proc.waitEv (fmt n)
                      (Proc.emit (TraceItem.resolveStep (fmt n))
                        Proc.done)) := by
                simp [unmountApp, hl, h1, hk, hd, hc]
              exact ⟨[TraceItem.hiddenUnmountStep (fmt n) false,
                TraceItem.eventFired (fmt n)], fmt n, by rw [hp]; rfl⟩
            · simp only [Bool.not_eq_true] at hc
              have hp : (unmountApp fmt r' n options).proc =
                  Proc.emit (TraceItem.resolveStep (fmt n)) Proc.done := by
                simp [unmountApp, hl, h1, hk, hd, hc]
              exact ⟨[], fmt n, by rw [hp]; rfl⟩
        · have hp : (unmountApp fmt r' n options).proc =
              Proc.emit (TraceItem.addL (fmt n) Ev.unmountEv)
                (Proc.emit (TraceItem.addL (fmt n) Ev.afterhiddenEv)
                  (Proc.emit (TraceItem.removeChildStep (fmt n))
                    (Proc.waitEv (fmt n)
                      (Proc.emit (TraceItem.remL (fmt n) Ev.unmountEv)
                        (Proc.emit (TraceItem.remL (fmt n) Ev.afterhiddenEv)
                          (Proc.emit (TraceItem.resolveStep (fmt n))
                            Proc.done)))))) := by
            simp [unmountApp, hl, h1, hk]
          exact ⟨[TraceItem.addL (fmt n) Ev.unmountEv,
            TraceItem.addL (fmt n) Ev.afterhiddenEv,
            TraceItem.removeChildStep (fmt n),
            TraceItem.eventFired (fmt n),
            TraceItem.remL (fmt n) Ev.unmountEv,
            TraceItem.remL (fmt n) Ev.afterhiddenEv], fmt n,
            by rw [hp]; rfl⟩

/-- Claim C8: `MicroApp.start` reports configuration errors — an invalid
tag name (one not beginning with `micro-app`), or an already-defined
custom element — once, via a single message on the non-fatal log channel,
and returns without defining the element; start-up is aborted before any
work only when the environment is unsupported (not a browser or
`customElements` unavailable); in the unsupported-environment and
invalid-tag-name cases no global initialization (`initGlobalEnv`) and no
element definition occurs, while a supported environment with a valid
(or defaulted) fresh tag name initializes and defines the element with
no log output. -/
theorem start_error_handling (env : StartEnv)
    (options : Option StartOptions) :
    ((env.isBrowser = false ∨ env.hasCustomElements = false) →
      (start env options).logs =
        [LogItem.error "micro-app is not supported in this environment"] ∧
      (start env options).initGlobalEnvCalled = false ∧
      (start env options).definedElement = none) ∧
    (∀ t : String, env.isBrowser = true → env.hasCustomElements = true →
      options.bind (fun o => o.tagName) = some t → tagNameTest t = false →
      (start env options).logs = [LogItem.error (t ++ " is invalid tagName")] ∧
      (start env options).initGlobalEnvCalled = false ∧
      (start env options).definedElement = none) ∧
    (∀ t : String, env.isBrowser = true → env.hasCustomElements = true →
      (options.bind (fun o => o.tagName) = some t ∧ tagNameTest t = true ∨
        options.bind (fun o => o.tagName) = none ∧ t = "micro-app") →
      env.definedElements.contains t = true →
      (start env options).logs =
        [LogItem.warn ("element " ++ t ++ " is already defined")] ∧
      (start env options).initGlobalEnvCalled = false ∧
      (start env options).definedElement = none) ∧
    (∀ t : String, env.isBrowser = true → env.hasCustomElements = true →
      (options.bind (fun o => o.tagName) = some t ∧ tagNameTest t = true ∨
        options.bind (fun o => o.tagName) = none ∧ t = "micro-app") →
      env.definedElements.contains t = false →
      (start env options).logs = [] ∧
      (start env options).initGlobalEnvCalled = true ∧
      (start env options).definedElement = some t) := by
  refine ⟨?_, ?_, ?_, ?_⟩
  · intro hu
    have hcond : (!env.isBrowser || !env.hasCustomElements) = true := by
      rcases hu with h | h <;> simp [h]
    have hred : start env options =
        { logs := [LogItem.error
            "micro-app is not supported in this environment"]
          initGlobalEnvCalled := false
          definedElement := none
          prefetchCalled := false
          globalAssetsCalled := false
          tagName := "micro-app" } := by
      simp [start, hcond]
    rw [hred]
    exact ⟨rfl, rfl, rfl⟩
  · intro t hb hce htag hbad
    have hred : start env options =
        { logs := [LogItem.error (t ++ " is invalid tagName")]
          initGlobalEnvCalled := false
          definedElement := none
          prefetchCalled := false
          globalAssetsCalled := false
          tagName := "micro-app" } := by
      simp [start, hb, hce, htag, hbad]
    rw [hred]
    exact ⟨rfl, rfl, rfl⟩
  · intro t hb hce htag hdef
    have hred : start env options = startAfterTag env options t := by
      rcases htag with ⟨ht, hok⟩ | ⟨ht, hdefault⟩
      · simp [start, hb, hce, ht, hok]
      · simp [start, hb, hce, ht, hdefault]
    rw [hred]
    have hred2 : startAfterTag env options t =
        { logs := [LogItem.warn ("element " ++ t ++ " is already defined")]
          initGlobalEnvCalled := false
          definedElement := none
          prefetchCalled := false
          globalAssetsCalled := false
          tagName := t } := by
      have hm : t ∈ env.definedElements := by simpa using hdef
      simp [startAfterTag, hm]
    rw [hred2]
    exact ⟨rfl, rfl, rfl⟩
  · intro t hb hce htag hdef
    have hred : start env options = startAfterTag env options t := by
      rcases htag with ⟨ht, hok⟩ | ⟨ht, hdefault⟩
      · simp [start, hb, hce, ht, hok]
      · simp [start, hb, hce, ht, hdefault]
    rw [hred]
    have hred2 : startAfterTag env options t =
        { logs := []
          initGlobalEnvCalled := true
          definedElement := some t
          prefetchCalled := (options.map (fun o => o.preFetchApps)).getD false
          globalAssetsCalled :=
            (options.map (fun o => o.globalAssets)).getD false
          tagName := t } := by
      have hm : ¬ t ∈ env.definedElements := by simpa using hdef
      simp [startAfterTag, hm]
    rw [hred2]
    exact ⟨rfl, rfl, rfl⟩

/-- Witness for C8 at concrete inputs: an unsupported environment logs a
single error and defines nothing; a bad tag name logs a single error and
defines nothing; a duplicate element logs a single warning and defines
nothing; a fresh valid configuration initializes and defines the tag. -/
theorem start_error_handling_witness :
    (start { isBrowser := false, hasCustomElements := true,
             definedElements := [] } none).definedElement = none ∧
    (start { isBrowser := true, hasCustomElements := true,
             definedElements := [] }
      (some { tagName := some "my-element" })).logs =
      [LogItem.error "my-element is invalid tagName"] ∧
    (start { isBrowser := true, hasCustomElements := true,
             definedElements := ["micro-app"] } none).logs =
      [LogItem.warn "element micro-app is already defined"] ∧
    (start { isBrowser := true, hasCustomElements := true,
             definedElements := [] } none).definedElement =
      some "micro-app" := by
  refine ⟨?_, ?_, ?_, ?_⟩
  · exact ((start_error_handling
      { isBrowser := false, hasCustomElements := true,
        definedElements := [] } none).1 (Or.inl rfl)).2.2
  · have h := ((start_error_handling
      { isBrowser := true, hasCustomElements := true,
        definedElements := [] }
      (some { tagName := some "my-element" })).2.1 "my-element"
      rfl rfl rfl (by decide)).1
    rw [h]
    rfl
  · have h := ((start_error_handling
      { isBrowser := true, hasCustomElements := true,
        definedElements := ["micro-app"] } none).2.2.1 "micro-app"
      rfl rfl (Or.inr ⟨rfl, rfl⟩) (by decide)).1
    rw [h]
    rfl
  · exact ((start_error_handling
      { isBrowser := true, hasCustomElements := true,
        definedElements := [] } none).2.2.2 "micro-app"
      rfl rfl (Or.inr ⟨rfl, rfl⟩) (by decide)).2.2

end MicroAppSpec
